import Mathlib

/-!
Shallow embedding of the task-management tool's core:
- `src/todo/models.py` : the `Task` dataclass with `to_dict` / `from_dict`;
- `src/todo/storage.py` : `load_tasks`, `save_tasks`, `get_next_id`;
- `src/app.py` : the `TodoApp` lifecycle operations over the three
  collections (active `tasks`, `archived_tasks`, `finished_tasks`), the
  timer map, and the three persisted stores.

File I/O is modelled by explicit store contents: a store is either
missing, unparseable, or a parsed JSON array of records; saving a
collection replaces the store content with the serialized records.
The nondeterministic `datetime.now()` is passed in as a `now` string.
-/

namespace Todo

/-- A task record as held in memory (the `Task` dataclass of
`src/todo/models.py`).  `created_at` is always a string after
`__post_init__` has run, so it is a plain `String` here; the optional
fields `due_date` and `completed_at` are `Option String`. -/
structure Task where
  id : Int
  title : String
  description : String
  status : String
  priority : String
  created_at : String
  due_date : Option String := none
  duration_seconds : Int := 0
  remaining_seconds : Int := 0
  completed_at : Option String := none
deriving DecidableEq, Repr

/-- A serialized task record (one JSON object of a store array).  Each
field is optional because `Task.from_dict` must tolerate records with
missing keys; a JSON `null` and a missing key are both `none`, matching
`dict.get` returning `None` in both cases. -/
structure TaskDict where
  id : Option Int := none
  title : Option String := none
  description : Option String := none
  status : Option String := none
  priority : Option String := none
  created_at : Option String := none
  due_date : Option String := none
  duration_seconds : Option Int := none
  remaining_seconds : Option Int := none
  completed_at : Option String := none
deriving DecidableEq, Repr

/-- `Task.to_dict` (models.py line 22): `asdict(self)` serializes every
field, optional fields becoming `null` when `None`. -/
def Task.to_dict (t : Task) : TaskDict :=
  { id := some t.id
    title := some t.title
    description := some t.description
    status := some t.status
    priority := some t.priority
    created_at := some t.created_at
    due_date := t.due_date
    duration_seconds := some t.duration_seconds
    remaining_seconds := some t.remaining_seconds
    completed_at := t.completed_at }

/-- `Task.from_dict` (models.py lines 25-39) together with
`__post_init__`: missing `created_at` is replaced by the current time,
passed here as `now`.  Defaults follow the source exactly: `id` 0,
`title`/`description` empty, `status` "pending", `priority` "low",
`duration_seconds` 0, `remaining_seconds` falls back to
`duration_seconds` and then to 0. -/
def Task.from_dict (d : TaskDict) (now : String) : Task :=
  { id := d.id.getD 0
    title := d.title.getD ""
    description := d.description.getD ""
    status := d.status.getD "pending"
    priority := d.priority.getD "low"
    created_at := d.created_at.getD now
    due_date := d.due_date
    duration_seconds := d.duration_seconds.getD 0
    remaining_seconds := d.remaining_seconds.getD (d.duration_seconds.getD 0)
    completed_at := d.completed_at }

/-- The observable content of one store file: absent, present but
unparseable, or a parsed array of records. -/
inductive StoreContent where
  | missing : StoreContent
  | corrupt : StoreContent
  | good : List TaskDict → StoreContent
deriving DecidableEq, Repr

/-- `load_tasks` (storage.py lines 6-18).  Returns the loaded tasks
together with the diagnostic messages printed: a missing file returns
`[]` before the `try` block, a corrupt file is caught, reported and
returns `[]`, a good file maps `Task.from_dict` over the array. -/
def load_tasks (c : StoreContent) (now : String) : List Task × List String :=
  match c with
  | StoreContent.missing => ([], [])
  | StoreContent.corrupt => ([], ["Error loading store"])
  | StoreContent.good ds => (ds.map (fun d => Task.from_dict d now), [])

/-- `save_tasks` (storage.py lines 20-30): serializes the full
collection; the store content becomes the array of `to_dict` records. -/
def save_tasks (tasks : List Task) : List TaskDict :=
  tasks.map Task.to_dict

/-- `get_next_id` (storage.py lines 32-36): `1` on the empty list,
otherwise `max(task.id for task in tasks) + 1`. -/
def get_next_id (tasks : List Task) : Int :=
  match tasks with
  | [] => 1
  | t :: ts => ts.foldl (fun m u => max m u.id) t.id + 1

/-- The mutable state of `TodoApp` (src/app.py): the three in-memory
collections, the running-timer key set (`self.timers` maps task id to a
scheduler handle; only the key set matters to the semantics), and the
content of the three persisted stores. -/
structure AppState where
  tasks : List Task
  archived_tasks : List Task
  finished_tasks : List Task
  timers : List Int
  tasksStore : List TaskDict
  archiveStore : List TaskDict
  finishedStore : List TaskDict
deriving DecidableEq, Repr

/-- `TodoApp._stop_timer` (app.py lines 1176-1186): cancels and removes
the timer entry when present, then unconditionally saves the active
collection to the tasks store. -/
def stop_timer (s : AppState) (task_id : Int) : AppState :=
  { s with
    timers := s.timers.filter (fun i => i ≠ task_id)
    tasksStore := save_tasks s.tasks }

/-- `TodoApp._mark_done` (app.py lines 1107-1124): stops the timer if
running, removes the task's id from the active collection, sets status
"done", clamps `remaining_seconds = max(0, remaining_seconds or 0)`,
appends to the finished collection, and saves both stores. -/
def mark_done (s : AppState) (task : Task) : AppState :=
  let s0 := if task.id ∈ s.timers then stop_timer s task.id else s
  let tasks1 := s0.tasks.filter (fun t => t.id ≠ task.id)
  let task1 := { task with status := "done",
                           remaining_seconds := max 0 task.remaining_seconds }
  let finished1 := s0.finished_tasks ++ [task1]
  { s0 with
    tasks := tasks1
    finished_tasks := finished1
    tasksStore := save_tasks tasks1
    finishedStore := save_tasks finished1 }

/-- `TodoApp._undo_done` (app.py lines 1126-1141): removes the task's id
from the finished collection, sets status "pending", restores
`remaining_seconds` from `duration_seconds` when it is 0, appends to the
active collection, and saves both stores. -/
def undo_done (s : AppState) (task : Task) : AppState :=
  let finished1 := s.finished_tasks.filter (fun t => t.id ≠ task.id)
  let task1 := { task with status := "pending",
                           remaining_seconds :=
                             if task.remaining_seconds = 0 then
                               task.duration_seconds
                             else task.remaining_seconds }
  let tasks1 := s.tasks ++ [task1]
  { s with
    tasks := tasks1
    finished_tasks := finished1
    tasksStore := save_tasks tasks1
    finishedStore := save_tasks finished1 }

/-- The timer auto-start performed by `TodoApp._render_tasks` (app.py
lines 696-723) under the default view state (empty search, status and
priority filters "all"), where every task of the active collection gets
a card: `_create_task_card` (lines 814-815) calls `_start_timer` for
each card's task whose id has no entry in the evolving timer map and
whose status is not "done" (lines 1172-1173 then add the id).  The
render sorts the cards by `created_at` first; that order affects only
the insertion order of the timer map, not which ids end up present, so
the fold here processes the collection in its own order. -/
def render_start_timers (timers : List Int) (tasks : List Task) : List Int :=
  tasks.foldl
    (fun tm t => if t.id ∈ tm ∨ t.status = "done" then tm else tm ++ [t.id])
    timers

/-- `TodoApp._archive_task` (app.py lines 659-675): stops the timer if
running, removes the task's id from the active collection, sets status
"archived", appends to the archived collection, saves both stores, and
re-renders the active list (line 671), which auto-starts timers for the
remaining displayed pending tasks that have none. -/
def archive_task (s : AppState) (task : Task) : AppState :=
  let s0 := if task.id ∈ s.timers then stop_timer s task.id else s
  let tasks1 := s0.tasks.filter (fun t => t.id ≠ task.id)
  let task1 := { task with status := "archived" }
  let archived1 := s0.archived_tasks ++ [task1]
  { s0 with
    tasks := tasks1
    archived_tasks := archived1
    timers := render_start_timers s0.timers tasks1
    tasksStore := save_tasks tasks1
    archiveStore := save_tasks archived1 }

/-- `TodoApp._restore_task` (app.py lines 627-639): removes the task's
id from the archived collection, sets status "pending", appends to the
active collection, saves both stores, and re-renders the active list
(line 636), which auto-starts a timer for every displayed pending task
without one — the restored task included. -/
def restore_task (s : AppState) (task : Task) : AppState :=
  let archived1 := s.archived_tasks.filter (fun t => t.id ≠ task.id)
  let task1 := { task with status := "pending" }
  let tasks1 := s.tasks ++ [task1]
  { s with
    tasks := tasks1
    archived_tasks := archived1
    timers := render_start_timers s.timers tasks1
    tasksStore := save_tasks tasks1
    archiveStore := save_tasks archived1 }

/-- `TodoApp._permanently_delete_task` (app.py lines 641-648): after the
user confirms, removes the task's id from the archived collection only
and saves the archive store; without confirmation nothing happens. -/
def permanently_delete_task (s : AppState) (task : Task) (confirm : Bool) :
    AppState :=
  if confirm then
    let archived1 := s.archived_tasks.filter (fun t => t.id ≠ task.id)
    { s with archived_tasks := archived1, archiveStore := save_tasks archived1 }
  else s

/-- `TodoApp._permanently_delete_finished_task` (app.py lines 650-657):
after the user confirms, removes the task's id from the finished
collection only and saves the finished store. -/
def permanently_delete_finished_task (s : AppState) (task : Task)
    (confirm : Bool) : AppState :=
  if confirm then
    let finished1 := s.finished_tasks.filter (fun t => t.id ≠ task.id)
    { s with finished_tasks := finished1,
             finishedStore := save_tasks finished1 }
  else s

/-- The `task is None` branch of `on_save` (app.py lines 1068-1093,
1101): validates the stripped title, assigns the id with `get_next_id`
over the concatenation of all three collections, builds the new pending
task with zero durations, appends it to the active collection and saves
the tasks store.  `now` stands for `datetime.now().isoformat()`. -/
def on_save_new (s : AppState) (title description prio : String)
    (due : Option String) (now : String) : AppState :=
  if title.trim.isEmpty then s
  else
    let new_id := get_next_id (s.tasks ++ s.archived_tasks ++ s.finished_tasks)
    let new_task : Task :=
      { id := new_id
        title := title.trim
        description := description
        status := "pending"
        priority := prio
        created_at := now
        due_date := due
        duration_seconds := 0
        remaining_seconds := 0
        completed_at := none }
    let tasks1 := s.tasks ++ [new_task]
    { s with tasks := tasks1, tasksStore := save_tasks tasks1 }

/-- The edit branch of `on_save` (app.py lines 1094-1101): validates the
stripped title, then mutates title, description, priority and due date
of the task object in place — the object is an element of the active
collection, identified here by its id — and saves the tasks store. -/
def on_save_edit (s : AppState) (tid : Int) (title description prio : String)
    (due : Option String) : AppState :=
  if title.trim.isEmpty then s
  else
    let tasks1 := s.tasks.map (fun t =>
      if t.id = tid then
        { t with title := title.trim, description := description,
                 priority := prio, due_date := due }
      else t)
    { s with tasks := tasks1, tasksStore := save_tasks tasks1 }

/-- The ids of the tasks of a collection. -/
def ids (l : List Task) : List Int :=
  l.map (fun t => t.id)

/-- The cross-collection invariant of §3 of the spec: every task of the
active collection has status "pending", of the archived collection
"archived", of the finished collection "done", and the id sets of the
three collections are pairwise disjoint — so a given id lies in at most
one collection, and membership determines status. -/
def Invariant (s : AppState) : Prop :=
  (∀ t ∈ s.tasks, t.status = "pending") ∧
  (∀ t ∈ s.archived_tasks, t.status = "archived") ∧
  (∀ t ∈ s.finished_tasks, t.status = "done") ∧
  (∀ t ∈ s.tasks, t.id ∉ ids s.archived_tasks ∧ t.id ∉ ids s.finished_tasks) ∧
  (∀ t ∈ s.archived_tasks, t.id ∉ ids s.finished_tasks)

instance (s : AppState) : Decidable (Invariant s) := by
  unfold Invariant
  infer_instance

/-- A concrete pending task used to instantiate the theorems. -/
def wPending : Task :=
  { id := 1, title := "alpha", description := "", status := "pending",
    priority := "low", created_at := "t0", remaining_seconds := 5 }

/-- A concrete finished task used to instantiate the theorems. -/
def wDone : Task :=
  { id := 2, title := "beta", description := "", status := "done",
    priority := "low", created_at := "t1" }

/-- A concrete archived task used to instantiate the theorems. -/
def wArch : Task :=
  { id := 3, title := "gamma", description := "", status := "archived",
    priority := "high", created_at := "t2" }

/-- A concrete application state satisfying the invariant, with the
pending task's timer running and all stores in sync. -/
def wState : AppState :=
  { tasks := [wPending]
    archived_tasks := [wArch]
    finished_tasks := [wDone]
    timers := [1]
    tasksStore := save_tasks [wPending]
    archiveStore := save_tasks [wArch]
    finishedStore := save_tasks [wDone] }

/-- The record of Scenario 4 of the spec: only `id` and `title` set. -/
def scenario4 : TaskDict :=
  { id := some 3, title := some "X" }

/-- A record with only `duration_seconds` set, to exhibit the
`remaining_seconds` fallback. -/
def wDictDur : TaskDict :=
  { duration_seconds := some 9 }

/-- A record with no fields at all. -/
def wDictEmpty : TaskDict := {}

/-- A concrete pending task with id 7, as in Scenario 3 of the spec. -/
def wTask7 : Task :=
  { id := 7, title := "seven", description := "", status := "pending",
    priority := "low", created_at := "t7", remaining_seconds := 11 }

/-- A concrete pending task with id 8, a neighbour of `wTask7`. -/
def wTask8 : Task :=
  { id := 8, title := "eight", description := "", status := "pending",
    priority := "medium", created_at := "t8" }

/-- A state whose active collection holds the two pending tasks 7 and 8
in that order, with no running timers and all stores in sync. -/
def wPair : AppState :=
  { tasks := [wTask7, wTask8]
    archived_tasks := []
    finished_tasks := []
    timers := []
    tasksStore := save_tasks [wTask7, wTask8]
    archiveStore := []
    finishedStore := [] }

/-- The state `wPair` as it stands after a render: both displayed
pending tasks have running timers, stores in sync. -/
def wPairT : AppState :=
  { tasks := [wTask7, wTask8]
    archived_tasks := []
    finished_tasks := []
    timers := [7, 8]
    tasksStore := save_tasks [wTask7, wTask8]
    archiveStore := []
    finishedStore := [] }

/-- A state with no running timers whose tasks store lags behind the
in-memory active collection (as it does between timer ticks, which do
not persist). -/
def wStale : AppState :=
  { tasks := [wPending]
    archived_tasks := []
    finished_tasks := []
    timers := []
    tasksStore := []
    archiveStore := []
    finishedStore := [] }

-- ------------------------------------------------------------------
-- Helper lemmas
-- ------------------------------------------------------------------

theorem foldl_max_init_le (l : List Task) (a : Int) :
    a ≤ l.foldl (fun m u => max m u.id) a := by
  induction l generalizing a with
  | nil => exact le_refl a
  | cons x xs ih => exact le_trans (le_max_left a x.id) (ih (max a x.id))

theorem le_foldl_max (l : List Task) (a : Int) :
    ∀ t ∈ l, t.id ≤ l.foldl (fun m u => max m u.id) a := by
  induction l generalizing a with
  | nil => intro t ht; cases ht
  | cons x xs ih =>
    intro t ht
    rcases List.mem_cons.mp ht with h | h
    · subst h
      exact le_trans (le_max_right a t.id) (foldl_max_init_le xs (max a t.id))
    · exact ih (max a x.id) t h

theorem foldl_max_attained (l : List Task) (a : Int) :
    l.foldl (fun m u => max m u.id) a = a ∨
      ∃ t ∈ l, l.foldl (fun m u => max m u.id) a = t.id := by
  induction l generalizing a with
  | nil => exact Or.inl rfl
  | cons x xs ih =>
    rcases ih (max a x.id) with h | ⟨t, ht, he⟩
    · rcases max_cases a x.id with ⟨hm, _⟩ | ⟨hm, _⟩
      · left
        rw [List.foldl_cons, h, hm]
      · right
        exact ⟨x, List.mem_cons_self x xs, by rw [List.foldl_cons, h, hm]⟩
    · right
      exact ⟨t, List.mem_cons_of_mem x ht, by rw [List.foldl_cons]; exact he⟩

theorem get_next_id_gt (l : List Task) : ∀ t ∈ l, t.id < get_next_id l := by
  intro t ht
  cases l with
  | nil => cases ht
  | cons x xs =>
    have hle : t.id ≤ xs.foldl (fun m u => max m u.id) x.id := by
      rcases List.mem_cons.mp ht with h | h
      · subst h
        exact foldl_max_init_le xs t.id
      · exact le_foldl_max xs x.id t h
    calc t.id ≤ xs.foldl (fun m u => max m u.id) x.id := hle
      _ < xs.foldl (fun m u => max m u.id) x.id + 1 := lt_add_one _
      _ = get_next_id (x :: xs) := rfl

theorem get_next_id_attained (l : List Task) (h : l ≠ []) :
    ∃ t ∈ l, get_next_id l = t.id + 1 ∧ ∀ u ∈ l, u.id ≤ t.id := by
  cases l with
  | nil => exact absurd rfl h
  | cons x xs =>
    have hmax : ∀ u ∈ x :: xs, u.id ≤ xs.foldl (fun m u => max m u.id) x.id := by
      intro u hu
      rcases List.mem_cons.mp hu with h' | h'
      · subst h'
        exact foldl_max_init_le xs u.id
      · exact le_foldl_max xs x.id u h'
    rcases foldl_max_attained xs x.id with he | ⟨t, ht, he⟩
    · refine ⟨x, List.mem_cons_self x xs, ?_, ?_⟩
      · show xs.foldl (fun m u => max m u.id) x.id + 1 = x.id + 1
        rw [he]
      · intro u hu
        have := hmax u hu
        rwa [he] at this
    · refine ⟨t, List.mem_cons_of_mem x ht, ?_, ?_⟩
      · show xs.foldl (fun m u => max m u.id) x.id + 1 = t.id + 1
        rw [he]
      · intro u hu
        have := hmax u hu
        rwa [he] at this

theorem mem_ids {l : List Task} {i : Int} : i ∈ ids l ↔ ∃ t ∈ l, t.id = i :=
  List.mem_map

theorem id_mem_ids {l : List Task} {t : Task} (h : t ∈ l) : t.id ∈ ids l :=
  List.mem_map_of_mem _ h

theorem filter_int_ne_eq_self (l : List Int) (a : Int) (h : a ∉ l) :
    l.filter (fun i => i ≠ a) = l := by
  simp only [List.filter_eq_self, decide_eq_true_eq]
  intro b hb he
  exact h (he ▸ hb)

theorem filter_task_ne_eq_self (l : List Task) (i : Int) (h : i ∉ ids l) :
    l.filter (fun t => t.id ≠ i) = l := by
  simp only [List.filter_eq_self, decide_eq_true_eq]
  intro t htl he
  exact h (he ▸ id_mem_ids htl)

theorem filter_int_ne_idem (l : List Int) (a : Int) :
    (l.filter (fun i => i ≠ a)).filter (fun i => i ≠ a) =
      l.filter (fun i => i ≠ a) := by
  apply filter_int_ne_eq_self
  intro hmem
  have := (List.mem_filter.mp hmem).2
  simp at this

-- Projections of the lifecycle operations.

theorem stop_timer_tasks (s : AppState) (i : Int) :
    (stop_timer s i).tasks = s.tasks := rfl

theorem stop_timer_archived (s : AppState) (i : Int) :
    (stop_timer s i).archived_tasks = s.archived_tasks := rfl

theorem stop_timer_finished (s : AppState) (i : Int) :
    (stop_timer s i).finished_tasks = s.finished_tasks := rfl

theorem mark_done_tasks (s : AppState) (task : Task) :
    (mark_done s task).tasks = s.tasks.filter (fun t => t.id ≠ task.id) := by
  unfold mark_done
  by_cases h : task.id ∈ s.timers <;> simp [h, stop_timer]

theorem mark_done_archived (s : AppState) (task : Task) :
    (mark_done s task).archived_tasks = s.archived_tasks := by
  unfold mark_done
  by_cases h : task.id ∈ s.timers <;> simp [h, stop_timer]

theorem mark_done_finished (s : AppState) (task : Task) :
    (mark_done s task).finished_tasks = s.finished_tasks ++
      [{ task with status := "done",
                   remaining_seconds := max 0 task.remaining_seconds }] := by
  unfold mark_done
  by_cases h : task.id ∈ s.timers <;> simp [h, stop_timer]

theorem mark_done_timers (s : AppState) (task : Task) :
    (mark_done s task).timers = s.timers.filter (fun i => i ≠ task.id) := by
  unfold mark_done
  by_cases h : task.id ∈ s.timers
  · simp [h, stop_timer]
  · simp only [h, if_neg, ite_false]
    symm
    simpa using filter_int_ne_eq_self s.timers task.id h

theorem mark_done_tasksStore (s : AppState) (task : Task) :
    (mark_done s task).tasksStore = save_tasks (mark_done s task).tasks := by
  unfold mark_done
  by_cases h : task.id ∈ s.timers <;> simp [h, stop_timer]

theorem mark_done_finishedStore (s : AppState) (task : Task) :
    (mark_done s task).finishedStore =
      save_tasks (mark_done s task).finished_tasks := by
  unfold mark_done
  by_cases h : task.id ∈ s.timers <;> simp [h, stop_timer]

theorem archive_task_tasks (s : AppState) (task : Task) :
    (archive_task s task).tasks = s.tasks.filter (fun t => t.id ≠ task.id) := by
  unfold archive_task
  by_cases h : task.id ∈ s.timers <;> simp [h, stop_timer]

theorem archive_task_archived (s : AppState) (task : Task) :
    (archive_task s task).archived_tasks =
      s.archived_tasks ++ [{ task with status := "archived" }] := by
  unfold archive_task
  by_cases h : task.id ∈ s.timers <;> simp [h, stop_timer]

theorem archive_task_finished (s : AppState) (task : Task) :
    (archive_task s task).finished_tasks = s.finished_tasks := by
  unfold archive_task
  by_cases h : task.id ∈ s.timers <;> simp [h, stop_timer]

theorem archive_task_timers (s : AppState) (task : Task) :
    (archive_task s task).timers =
      render_start_timers (s.timers.filter (fun i => i ≠ task.id))
        (s.tasks.filter (fun t => t.id ≠ task.id)) := by
  unfold archive_task
  by_cases h : task.id ∈ s.timers
  · simp [h, stop_timer]
  · simp only [h, if_neg, ite_false]
    rw [filter_int_ne_eq_self s.timers task.id h]

theorem restore_task_timers (s : AppState) (task : Task) :
    (restore_task s task).timers =
      render_start_timers s.timers
        (s.tasks ++ [{ task with status := "pending" }]) := rfl

theorem mem_render_start_timers (l : List Task) (tm : List Int) (i : Int) :
    i ∈ render_start_timers tm l ↔
      i ∈ tm ∨ ∃ t ∈ l, t.id = i ∧ t.status ≠ "done" := by
  induction l generalizing tm with
  | nil => simp [render_start_timers]
  | cons x xs ih =>
    have hstep : render_start_timers tm (x :: xs) =
        render_start_timers
          (if x.id ∈ tm ∨ x.status = "done" then tm else tm ++ [x.id]) xs :=
      rfl
    rw [hstep]
    by_cases hx : x.id ∈ tm ∨ x.status = "done"
    · rw [if_pos hx, ih]
      constructor
      · rintro (hmem | ⟨t, ht, hP⟩)
        · exact Or.inl hmem
        · exact Or.inr ⟨t, List.mem_cons_of_mem x ht, hP⟩
      · rintro (hmem | ⟨t, ht, hid, hst⟩)
        · exact Or.inl hmem
        · rcases List.mem_cons.mp ht with he | ht'
          · subst he
            rcases hx with hx | hx
            · exact Or.inl (hid ▸ hx)
            · exact absurd hx hst
          · exact Or.inr ⟨t, ht', hid, hst⟩
    · rw [if_neg hx, ih]
      push_neg at hx
      obtain ⟨hx1, hx2⟩ := hx
      constructor
      · rintro (hmem | ⟨t, ht, hP⟩)
        · rcases List.mem_append.mp hmem with hmem | hmem
          · exact Or.inl hmem
          · have : i = x.id := List.mem_singleton.mp hmem
            exact Or.inr ⟨x, List.mem_cons_self x xs, this.symm, hx2⟩
        · exact Or.inr ⟨t, List.mem_cons_of_mem x ht, hP⟩
      · rintro (hmem | ⟨t, ht, hid, hst⟩)
        · exact Or.inl (List.mem_append.mpr (Or.inl hmem))
        · rcases List.mem_cons.mp ht with he | ht'
          · subst he
            exact Or.inl (List.mem_append.mpr (Or.inr
              (List.mem_singleton.mpr hid.symm)))
          · exact Or.inr ⟨t, ht', hid, hst⟩

theorem undo_done_tasks (s : AppState) (task : Task) :
    (undo_done s task).tasks = s.tasks ++
      [{ task with status := "pending",
                   remaining_seconds :=
                     if task.remaining_seconds = 0 then task.duration_seconds
                     else task.remaining_seconds }] := rfl

theorem undo_done_archived (s : AppState) (task : Task) :
    (undo_done s task).archived_tasks = s.archived_tasks := rfl

theorem undo_done_finished (s : AppState) (task : Task) :
    (undo_done s task).finished_tasks =
      s.finished_tasks.filter (fun t => t.id ≠ task.id) := rfl

theorem restore_task_tasks (s : AppState) (task : Task) :
    (restore_task s task).tasks =
      s.tasks ++ [{ task with status := "pending" }] := rfl

theorem restore_task_archived (s : AppState) (task : Task) :
    (restore_task s task).archived_tasks =
      s.archived_tasks.filter (fun t => t.id ≠ task.id) := rfl

theorem restore_task_finished (s : AppState) (task : Task) :
    (restore_task s task).finished_tasks = s.finished_tasks := rfl

theorem mem_ids_of_mem_ids_filter {l : List Task} {p : Task → Bool} {i : Int}
    (h : i ∈ ids (l.filter p)) : i ∈ ids l := by
  rcases mem_ids.mp h with ⟨t, ht, he⟩
  exact he ▸ id_mem_ids (List.mem_filter.mp ht).1

theorem id_not_mem_ids_filter (l : List Task) (i : Int) :
    i ∉ ids (l.filter (fun t => t.id ≠ i)) := by
  intro h
  rcases mem_ids.mp h with ⟨t, ht, he⟩
  have := (List.mem_filter.mp ht).2
  simp at this
  exact this he

-- Invariant preservation, one lemma per lifecycle operation.

theorem inv_mark_done (s : AppState) (task : Task) (h : Invariant s)
    (ht : task ∈ s.tasks) : Invariant (mark_done s task) := by
  obtain ⟨h1, h2, h3, h4, h5⟩ := h
  refine ⟨?_, ?_, ?_, ?_, ?_⟩
  · rw [mark_done_tasks]
    intro t htm
    exact h1 t (List.mem_filter.mp htm).1
  · rw [mark_done_archived]
    exact h2
  · rw [mark_done_finished]
    intro t htm
    rcases List.mem_append.mp htm with ho | hn
    · exact h3 t ho
    · have := List.mem_singleton.mp hn
      subst this
      rfl
  · rw [mark_done_tasks, mark_done_archived, mark_done_finished]
    intro t htm
    obtain ⟨htt, hne⟩ := List.mem_filter.mp htm
    have hne' : t.id ≠ task.id := by simpa using hne
    refine ⟨(h4 t htt).1, ?_⟩
    intro hmem
    rcases mem_ids.mp hmem with ⟨u, hu, hid⟩
    rcases List.mem_append.mp hu with ho | hn
    · exact (h4 t htt).2 (hid ▸ id_mem_ids ho)
    · have hu1 := List.mem_singleton.mp hn
      rw [hu1] at hid
      have hid2 : task.id = t.id := hid
      exact hne' hid2.symm
  · rw [mark_done_archived, mark_done_finished]
    intro t htm hmem
    rcases mem_ids.mp hmem with ⟨u, hu, hid⟩
    rcases List.mem_append.mp hu with ho | hn
    · exact h5 t htm (hid ▸ id_mem_ids ho)
    · have hu1 := List.mem_singleton.mp hn
      rw [hu1] at hid
      have hid2 : task.id = t.id := hid
      exact (h4 task ht).1 (hid2 ▸ id_mem_ids htm)

theorem inv_archive_task (s : AppState) (task : Task) (h : Invariant s)
    (ht : task ∈ s.tasks) : Invariant (archive_task s task) := by
  obtain ⟨h1, h2, h3, h4, h5⟩ := h
  refine ⟨?_, ?_, ?_, ?_, ?_⟩
  · rw [archive_task_tasks]
    intro t htm
    exact h1 t (List.mem_filter.mp htm).1
  · rw [archive_task_archived]
    intro t htm
    rcases List.mem_append.mp htm with ho | hn
    · exact h2 t ho
    · have := List.mem_singleton.mp hn
      subst this
      rfl
  · rw [archive_task_finished]
    exact h3
  · rw [archive_task_tasks, archive_task_archived, archive_task_finished]
    intro t htm
    obtain ⟨htt, hne⟩ := List.mem_filter.mp htm
    have hne' : t.id ≠ task.id := by simpa using hne
    refine ⟨?_, (h4 t htt).2⟩
    intro hmem
    rcases mem_ids.mp hmem with ⟨u, hu, hid⟩
    rcases List.mem_append.mp hu with ho | hn
    · exact (h4 t htt).1 (hid ▸ id_mem_ids ho)
    · have hu1 := List.mem_singleton.mp hn
      rw [hu1] at hid
      have hid2 : task.id = t.id := hid
      exact hne' hid2.symm
  · rw [archive_task_archived, archive_task_finished]
    intro t htm hmem
    rcases List.mem_append.mp htm with ho | hn
    · exact h5 t ho hmem
    · have hu1 := List.mem_singleton.mp hn
      rw [hu1] at hmem
      have hmem2 : task.id ∈ ids s.finished_tasks := hmem
      exact (h4 task ht).2 hmem2

theorem inv_undo_done (s : AppState) (task : Task) (h : Invariant s)
    (ht : task ∈ s.finished_tasks) : Invariant (undo_done s task) := by
  obtain ⟨h1, h2, h3, h4, h5⟩ := h
  refine ⟨?_, ?_, ?_, ?_, ?_⟩
  · rw [undo_done_tasks]
    intro t htm
    rcases List.mem_append.mp htm with ho | hn
    · exact h1 t ho
    · have := List.mem_singleton.mp hn
      subst this
      rfl
  · rw [undo_done_archived]
    exact h2
  · rw [undo_done_finished]
    intro t htm
    exact h3 t (List.mem_filter.mp htm).1
  · rw [undo_done_tasks, undo_done_archived, undo_done_finished]
    intro t htm
    rcases List.mem_append.mp htm with ho | hn
    · refine ⟨(h4 t ho).1, fun hmem => (h4 t ho).2
        (mem_ids_of_mem_ids_filter hmem)⟩
    · have := List.mem_singleton.mp hn
      subst this
      constructor
      · intro hmem
        have hmem2 : task.id ∈ ids s.archived_tasks := hmem
        rcases mem_ids.mp hmem2 with ⟨u, hu, hid⟩
        exact h5 u hu (hid ▸ id_mem_ids ht)
      · intro hmem
        have hmem2 : task.id ∈
            ids (s.finished_tasks.filter (fun t => t.id ≠ task.id)) := hmem
        exact id_not_mem_ids_filter s.finished_tasks task.id hmem2
  · rw [undo_done_archived, undo_done_finished]
    intro t htm hmem
    exact h5 t htm (mem_ids_of_mem_ids_filter hmem)

theorem inv_restore_task (s : AppState) (task : Task) (h : Invariant s)
    (ht : task ∈ s.archived_tasks) : Invariant (restore_task s task) := by
  obtain ⟨h1, h2, h3, h4, h5⟩ := h
  refine ⟨?_, ?_, ?_, ?_, ?_⟩
  · rw [restore_task_tasks]
    intro t htm
    rcases List.mem_append.mp htm with ho | hn
    · exact h1 t ho
    · have := List.mem_singleton.mp hn
      subst this
      rfl
  · rw [restore_task_archived]
    intro t htm
    exact h2 t (List.mem_filter.mp htm).1
  · rw [restore_task_finished]
    exact h3
  · rw [restore_task_tasks, restore_task_archived, restore_task_finished]
    intro t htm
    rcases List.mem_append.mp htm with ho | hn
    · refine ⟨fun hmem => (h4 t ho).1 (mem_ids_of_mem_ids_filter hmem),
        (h4 t ho).2⟩
    · have := List.mem_singleton.mp hn
      subst this
      constructor
      · intro hmem
        have hmem2 : task.id ∈
            ids (s.archived_tasks.filter (fun t => t.id ≠ task.id)) := hmem
        exact id_not_mem_ids_filter s.archived_tasks task.id hmem2
      · intro hmem
        have hmem2 : task.id ∈ ids s.finished_tasks := hmem
        exact h5 task ht hmem2
  · rw [restore_task_archived, restore_task_finished]
    intro t htm hmem
    exact h5 t (List.mem_filter.mp htm).1 hmem

theorem inv_permanently_delete_task (s : AppState) (task : Task)
    (confirm : Bool) (h : Invariant s) :
    Invariant (permanently_delete_task s task confirm) := by
  obtain ⟨h1, h2, h3, h4, h5⟩ := h
  unfold permanently_delete_task
  cases confirm
  · exact ⟨h1, h2, h3, h4, h5⟩
  · refine ⟨h1, ?_, h3, ?_, ?_⟩
    · intro t htm
      exact h2 t (List.mem_filter.mp htm).1
    · intro t htm
      exact ⟨fun hmem => (h4 t htm).1 (mem_ids_of_mem_ids_filter hmem),
        (h4 t htm).2⟩
    · intro t htm
      exact h5 t (List.mem_filter.mp htm).1

theorem inv_permanently_delete_finished_task (s : AppState) (task : Task)
    (confirm : Bool) (h : Invariant s) :
    Invariant (permanently_delete_finished_task s task confirm) := by
  obtain ⟨h1, h2, h3, h4, h5⟩ := h
  unfold permanently_delete_finished_task
  cases confirm
  · exact ⟨h1, h2, h3, h4, h5⟩
  · refine ⟨h1, h2, ?_, ?_, ?_⟩
    · intro t htm
      exact h3 t (List.mem_filter.mp htm).1
    · intro t htm
      exact ⟨(h4 t htm).1, fun hmem => (h4 t htm).2
        (mem_ids_of_mem_ids_filter hmem)⟩
    · intro t htm hmem
      exact h5 t htm (mem_ids_of_mem_ids_filter hmem)

theorem inv_on_save_new (s : AppState) (title description prio : String)
    (due : Option String) (now : String) (h : Invariant s) :
    Invariant (on_save_new s title description prio due now) := by
  obtain ⟨h1, h2, h3, h4, h5⟩ := h
  unfold on_save_new
  split
  · exact ⟨h1, h2, h3, h4, h5⟩
  · have hfresh := get_next_id_gt (s.tasks ++ s.archived_tasks ++
      s.finished_tasks)
    refine ⟨?_, h2, h3, ?_, h5⟩
    · intro t htm
      rcases List.mem_append.mp htm with ho | hn
      · exact h1 t ho
      · have := List.mem_singleton.mp hn
        subst this
        rfl
    · intro t htm
      rcases List.mem_append.mp htm with ho | hn
      · exact h4 t ho
      · have := List.mem_singleton.mp hn
        subst this
        constructor
        · intro hmem
          rcases mem_ids.mp hmem with ⟨u, hu, hid⟩
          have hlt := hfresh u (List.mem_append.mpr (Or.inl
            (List.mem_append.mpr (Or.inr hu))))
          exact absurd hid (ne_of_lt hlt)
        · intro hmem
          rcases mem_ids.mp hmem with ⟨u, hu, hid⟩
          have hlt := hfresh u (List.mem_append.mpr (Or.inr hu))
          exact absurd hid (ne_of_lt hlt)

theorem inv_on_save_edit (s : AppState) (tid : Int)
    (title description prio : String) (due : Option String)
    (h : Invariant s) :
    Invariant (on_save_edit s tid title description prio due) := by
  obtain ⟨h1, h2, h3, h4, h5⟩ := h
  unfold on_save_edit
  split
  · exact ⟨h1, h2, h3, h4, h5⟩
  · refine ⟨?_, h2, h3, ?_, h5⟩
    · intro t htm
      rcases List.mem_map.mp htm with ⟨u, hu, he⟩
      subst he
      by_cases hc : u.id = tid <;> simp only [hc, if_true, if_false, ite_true,
        ite_false, if_pos, if_neg] <;> exact h1 u hu
    · intro t htm
      rcases List.mem_map.mp htm with ⟨u, hu, he⟩
      subst he
      by_cases hc : u.id = tid
      · simp only [hc, if_true, if_false, ite_true, ite_false]
        exact hc ▸ h4 u hu
      · simp only [hc, if_true, if_false, ite_true, ite_false]
        exact h4 u hu

-- ------------------------------------------------------------------
-- Claim theorems
-- ------------------------------------------------------------------

/-- C2: over the union of the active, archived and finished collections,
`get_next_id` returns 1 when all three are empty, otherwise the maximum
existing id plus one, and it never returns an id already present in any
of the three collections. -/
theorem c2_get_next_id_spec (a b c : List Task) :
    (a ++ b ++ c = [] → get_next_id (a ++ b ++ c) = 1) ∧
    (a ++ b ++ c ≠ [] →
      ∃ t ∈ a ++ b ++ c, get_next_id (a ++ b ++ c) = t.id + 1 ∧
        ∀ u ∈ a ++ b ++ c, u.id ≤ t.id) ∧
    get_next_id (a ++ b ++ c) ∉ ids (a ++ b ++ c) := by
  refine ⟨fun h => by rw [h]; rfl, get_next_id_attained _, ?_⟩
  intro hmem
  rcases List.mem_map.mp hmem with ⟨t, ht, he⟩
  exact absurd he (ne_of_lt (get_next_id_gt _ t ht))

/-- Witness for C2: a nonempty union (ids 3 and 2, maximum 3) yields 4,
which is fresh; the empty union yields 1. -/
theorem c2_get_next_id_spec_witness :
    (∃ t ∈ [wArch] ++ [] ++ [wDone],
        get_next_id ([wArch] ++ [] ++ [wDone]) = t.id + 1 ∧
          ∀ u ∈ [wArch] ++ [] ++ [wDone], u.id ≤ t.id) ∧
    get_next_id ([wArch] ++ [] ++ [wDone]) ∉ ids ([wArch] ++ [] ++ [wDone]) ∧
    get_next_id ([] ++ [] ++ []) = 1 :=
  ⟨(c2_get_next_id_spec [wArch] [] [wDone]).2.1 (by decide),
   (c2_get_next_id_spec [wArch] [] [wDone]).2.2,
   (c2_get_next_id_spec [] [] []).1 rfl⟩

/-- C5: deserialization fills safe defaults for missing fields — status
"pending", priority "low", durations 0, `remaining_seconds` inheriting
`duration_seconds` when only the latter is present — and the record
with only id 3 and title "X" yields exactly the Task of Scenario 4. -/
theorem c5_from_dict_defaults (d : TaskDict) (now : String) :
    (d.status = none → (Task.from_dict d now).status = "pending") ∧
    (d.priority = none → (Task.from_dict d now).priority = "low") ∧
    (d.duration_seconds = none → (Task.from_dict d now).duration_seconds = 0) ∧
    (d.remaining_seconds = none → d.duration_seconds = none →
      (Task.from_dict d now).remaining_seconds = 0) ∧
    (∀ v : Int, d.remaining_seconds = none → d.duration_seconds = some v →
      (Task.from_dict d now).remaining_seconds = v) ∧
    Task.from_dict scenario4 now =
      { id := 3, title := "X", description := "", status := "pending",
        priority := "low", created_at := now, due_date := none,
        duration_seconds := 0, remaining_seconds := 0,
        completed_at := none } := by
  refine ⟨fun h => ?_, fun h => ?_, fun h => ?_, fun h h' => ?_,
    fun v h h' => ?_, rfl⟩ <;>
    simp [Task.from_dict, h]
  · rw [h']
    rfl
  · rw [h']
    rfl

/-- Witness for C5: the defaults at the Scenario 4 record and the
`remaining_seconds` fallback at a record with only a duration. -/
theorem c5_from_dict_defaults_witness :
    (Task.from_dict scenario4 "n0").status = "pending" ∧
    (Task.from_dict scenario4 "n0").priority = "low" ∧
    (Task.from_dict scenario4 "n0").duration_seconds = 0 ∧
    (Task.from_dict scenario4 "n0").remaining_seconds = 0 ∧
    (Task.from_dict wDictDur "n0").remaining_seconds = 9 :=
  ⟨(c5_from_dict_defaults scenario4 "n0").1 rfl,
   (c5_from_dict_defaults scenario4 "n0").2.1 rfl,
   (c5_from_dict_defaults scenario4 "n0").2.2.1 rfl,
   (c5_from_dict_defaults scenario4 "n0").2.2.2.1 rfl rfl,
   (c5_from_dict_defaults wDictDur "n0").2.2.2.2.1 9 rfl rfl⟩

/-- C6: saving a collection and loading it back reproduces the identical
list of Task values field-for-field, and deserialization inverts
serialization on every single Task, null optional fields included. -/
theorem c6_save_load_round_trip (tasks : List Task) (now : String) :
    (load_tasks (StoreContent.good (save_tasks tasks)) now).1 = tasks ∧
    ∀ t : Task, Task.from_dict (Task.to_dict t) now = t := by
  have hrt : ∀ t : Task, Task.from_dict (Task.to_dict t) now = t := by
    intro t
    cases t
    rfl
  refine ⟨?_, hrt⟩
  simp only [load_tasks, save_tasks, List.map_map]
  have hcomp : ((fun d => Task.from_dict d now) ∘ Task.to_dict) = id :=
    funext fun t => hrt t
  rw [hcomp, List.map_id]

/-- C8: loading a missing store yields the empty collection with no
diagnostic; loading a corrupt store yields the empty collection and
emits a diagnostic message instead of propagating the failure. -/
theorem c8_load_missing_corrupt (now : String) :
    (load_tasks StoreContent.missing now).1 = [] ∧
    (load_tasks StoreContent.corrupt now).1 = [] ∧
    (load_tasks StoreContent.corrupt now).2 ≠ [] :=
  ⟨rfl, rfl, by simp [load_tasks]⟩

/-- C10: a record without an "id" key deserializes to a Task with id 0,
so a store holding two id-less records loads to a collection whose ids
are [0, 0] — duplicate ids straight out of the public load interface. -/
theorem c10_missing_id_defaults_zero (d1 d2 : TaskDict) (now : String) :
    (d1.id = none → (Task.from_dict d1 now).id = 0) ∧
    (d1.id = none → d2.id = none →
      ids (load_tasks (StoreContent.good [d1, d2]) now).1 = [0, 0] ∧
      ¬ (ids (load_tasks (StoreContent.good [d1, d2]) now).1).Nodup) := by
  constructor
  · intro h
    simp [Task.from_dict, h]
  · intro h1 h2
    constructor
    · simp [load_tasks, ids, Task.from_dict, h1, h2]
    · simp [load_tasks, ids, Task.from_dict, h1, h2]

/-- C3: completing a pending active task removes its id from the active
collection, appends it to the finished collection with status "done" and
`remaining_seconds` clamped to `max 0 remaining_seconds` (so 5 stays 5),
stops its timer, and persists both the active and finished stores. -/
theorem c3_mark_done_spec (s : AppState) (task : Task)
    (h1 : task ∈ s.tasks) (h2 : task.status = "pending") :
    (mark_done s task).tasks = s.tasks.filter (fun t => t.id ≠ task.id) ∧
    (∀ t ∈ (mark_done s task).tasks, t.id ≠ task.id) ∧
    (mark_done s task).finished_tasks = s.finished_tasks ++
      [{ task with status := "done",
                   remaining_seconds := max 0 task.remaining_seconds }] ∧
    task.id ∉ (mark_done s task).timers ∧
    (task.remaining_seconds = 5 →
      (mark_done s task).finished_tasks = s.finished_tasks ++
        [{ task with status := "done", remaining_seconds := 5 }]) ∧
    (mark_done s task).tasksStore = save_tasks (mark_done s task).tasks ∧
    (mark_done s task).finishedStore =
      save_tasks (mark_done s task).finished_tasks := by
  refine ⟨mark_done_tasks s task, ?_, mark_done_finished s task, ?_, ?_,
    mark_done_tasksStore s task, mark_done_finishedStore s task⟩
  · rw [mark_done_tasks]
    intro t htm
    simpa using (List.mem_filter.mp htm).2
  · rw [mark_done_timers]
    intro hmem
    have := (List.mem_filter.mp hmem).2
    simp at this
  · intro h5
    rw [mark_done_finished, h5]
    have hmax : max (0 : Int) 5 = 5 := by norm_num
    rw [hmax]

/-- Witness for C3: completing the concrete pending task with 5 elapsed
seconds moves it to finished with `remaining_seconds` still 5 and its
timer entry gone. -/
theorem c3_mark_done_spec_witness :
    (mark_done wState wPending).finished_tasks = wState.finished_tasks ++
      [{ wPending with status := "done", remaining_seconds := 5 }] ∧
    wPending.id ∉ (mark_done wState wPending).timers :=
  ⟨(c3_mark_done_spec wState wPending (by decide) (by decide)).2.2.2.2.1
      (by decide),
   (c3_mark_done_spec wState wPending (by decide) (by decide)).2.2.2.1⟩

/-- C4 (amended): archiving a pending task removes its id from the
active collection and appends it with status "archived" to the archived
collection; restoring it then returns the original task value — status
"pending", `remaining_seconds` preserved — to the active collection,
the archived and finished collections regain their pre-archive values,
and the re-render inside restore auto-starts the restored task's timer
again; in a state where every active task's timer is running (as after
any render under the default filters) the timer map regains exactly its
previous members.  The one divergence is ordering: the restored task is
appended at the end of the active sequence rather than at its original
position, so archive-then-restore reverses the state only up to the
order of the active collection (and of the timer entries). -/
theorem c4_archive_then_restore (s : AppState) (task : Task)
    (h1 : task ∈ s.tasks) (h2 : task.status = "pending")
    (h3 : task.id ∉ ids s.archived_tasks) :
    (∀ t ∈ (archive_task s task).tasks, t.id ≠ task.id) ∧
    { task with status := "archived" } ∈ (archive_task s task).archived_tasks ∧
    (restore_task (archive_task s task)
        { task with status := "archived" }).archived_tasks =
      s.archived_tasks ∧
    (restore_task (archive_task s task)
        { task with status := "archived" }).finished_tasks =
      s.finished_tasks ∧
    (restore_task (archive_task s task)
        { task with status := "archived" }).tasks =
      s.tasks.filter (fun t => t.id ≠ task.id) ++ [task] ∧
    task.id ∈ (restore_task (archive_task s task)
        { task with status := "archived" }).timers ∧
    ((∀ t ∈ s.tasks, t.id ∈ s.timers) →
      ∀ i : Int, i ∈ (restore_task (archive_task s task)
          { task with status := "archived" }).timers ↔ i ∈ s.timers) := by
  have hback : ({ { task with status := "archived" } with
      status := "pending" } : Task) = task := by
    cases task
    simp only at h2
    rw [← h2]
  refine ⟨?_, ?_, ?_, ?_, ?_, ?_, ?_⟩
  · rw [archive_task_tasks]
    intro t htm
    simpa using (List.mem_filter.mp htm).2
  · rw [archive_task_archived]
    simp
  · have hproj : (restore_task (archive_task s task)
        { task with status := "archived" }).archived_tasks =
        (archive_task s task).archived_tasks.filter
          (fun t => t.id ≠ task.id) := rfl
    rw [hproj, archive_task_archived, List.filter_append,
      filter_task_ne_eq_self _ _ h3]
    simp
  · have hproj : (restore_task (archive_task s task)
        { task with status := "archived" }).finished_tasks =
        (archive_task s task).finished_tasks := rfl
    rw [hproj, archive_task_finished]
  · have hproj : (restore_task (archive_task s task)
        { task with status := "archived" }).tasks =
        (archive_task s task).tasks ++
          [{ { task with status := "archived" } with status := "pending" }] :=
      rfl
    rw [hproj, archive_task_tasks, hback]
  · rw [restore_task_timers]
    apply (mem_render_start_timers _ _ _).mpr
    right
    refine ⟨{ { task with status := "archived" } with status := "pending" },
      List.mem_append.mpr (Or.inr (List.mem_singleton.mpr rfl)), rfl, ?_⟩
    show ("pending" : String) ≠ "done"
    decide
  · intro hstab i
    constructor
    · intro hmem
      rw [restore_task_timers] at hmem
      rcases (mem_render_start_timers _ _ i).mp hmem with hm1 | ⟨t, ht, hid, _⟩
      · rw [archive_task_timers] at hm1
        rcases (mem_render_start_timers _ _ i).mp hm1 with hm2 | ⟨t, ht, hid, _⟩
        · exact (List.mem_filter.mp hm2).1
        · exact hid ▸ hstab t (List.mem_filter.mp ht).1
      · rcases List.mem_append.mp ht with ht' | ht'
        · rw [archive_task_tasks] at ht'
          exact hid ▸ hstab t (List.mem_filter.mp ht').1
        · have := List.mem_singleton.mp ht'
          subst this
          have hid2 : task.id = i := hid
          exact hid2 ▸ hstab task h1
    · intro hmem
      rw [restore_task_timers]
      apply (mem_render_start_timers _ _ _).mpr
      by_cases hcase : i = task.id
      · right
        refine ⟨{ { task with status := "archived" } with status := "pending" },
          List.mem_append.mpr (Or.inr (List.mem_singleton.mpr rfl)),
          hcase.symm, ?_⟩
        show ("pending" : String) ≠ "done"
        decide
      · left
        rw [archive_task_timers]
        apply (mem_render_start_timers _ _ _).mpr
        left
        exact List.mem_filter.mpr ⟨hmem, by simpa using hcase⟩

/-- Counterexample for C4: in the rendered state whose active sequence
is [7, 8] with both timers running, archiving task 7 and restoring it
yields the active sequence [8, 7] — the state is not as it was before
the archive, the divergence being the position of the restored task. -/
theorem c4_archive_restore_counterexample :
    restore_task (archive_task wPairT wTask7)
        { wTask7 with status := "archived" } ≠ wPairT ∧
    (restore_task (archive_task wPairT wTask7)
        { wTask7 with status := "archived" }).tasks = [wTask8, wTask7] ∧
    wPairT.tasks = [wTask7, wTask8] := by
  decide

/-- Witness for C4: instantiating the amended archive/restore theorem at
the rendered two-task state — the task returns (at the end), the
archived collection is restored, the restored task's timer is running
again, and timer 7's membership is as before the archive. -/
theorem c4_archive_then_restore_witness :
    (restore_task (archive_task wPairT wTask7)
        { wTask7 with status := "archived" }).tasks =
      wPairT.tasks.filter (fun t => t.id ≠ wTask7.id) ++ [wTask7] ∧
    (restore_task (archive_task wPairT wTask7)
        { wTask7 with status := "archived" }).archived_tasks =
      wPairT.archived_tasks ∧
    wTask7.id ∈ (restore_task (archive_task wPairT wTask7)
        { wTask7 with status := "archived" }).timers ∧
    ((7 : Int) ∈ (restore_task (archive_task wPairT wTask7)
        { wTask7 with status := "archived" }).timers ↔
      (7 : Int) ∈ wPairT.timers) :=
  ⟨(c4_archive_then_restore wPairT wTask7 (by decide) (by decide)
      (by decide)).2.2.2.2.1,
   (c4_archive_then_restore wPairT wTask7 (by decide) (by decide)
      (by decide)).2.2.1,
   (c4_archive_then_restore wPairT wTask7 (by decide) (by decide)
      (by decide)).2.2.2.2.2.1,
   (c4_archive_then_restore wPairT wTask7 (by decide) (by decide)
      (by decide)).2.2.2.2.2.2 (by decide) 7⟩

/-- C7: permanent deletion aimed at a task whose id lives only in the
active collection leaves all three collections unchanged — the task is
not removed, whichever delete operation is invoked and whether or not
the confirmation dialog is accepted. -/
theorem c7_delete_active_rejected (s : AppState) (task : Task) (confirm : Bool)
    (h1 : task.id ∈ ids s.tasks) (h2 : task.id ∉ ids s.archived_tasks)
    (h3 : task.id ∉ ids s.finished_tasks) :
    (permanently_delete_task s task confirm).tasks = s.tasks ∧
    (permanently_delete_task s task confirm).archived_tasks =
      s.archived_tasks ∧
    (permanently_delete_task s task confirm).finished_tasks =
      s.finished_tasks ∧
    (permanently_delete_finished_task s task confirm).tasks = s.tasks ∧
    (permanently_delete_finished_task s task confirm).archived_tasks =
      s.archived_tasks ∧
    (permanently_delete_finished_task s task confirm).finished_tasks =
      s.finished_tasks ∧
    task.id ∈ ids (permanently_delete_task s task confirm).tasks ∧
    task.id ∈ ids (permanently_delete_finished_task s task confirm).tasks := by
  have hA : (permanently_delete_task s task confirm).tasks = s.tasks := by
    unfold permanently_delete_task
    cases confirm <;> rfl
  have hB : (permanently_delete_task s task confirm).archived_tasks =
      s.archived_tasks := by
    unfold permanently_delete_task
    cases confirm
    · rfl
    · exact filter_task_ne_eq_self s.archived_tasks task.id h2
  have hC : (permanently_delete_task s task confirm).finished_tasks =
      s.finished_tasks := by
    unfold permanently_delete_task
    cases confirm <;> rfl
  have hD : (permanently_delete_finished_task s task confirm).tasks =
      s.tasks := by
    unfold permanently_delete_finished_task
    cases confirm <;> rfl
  have hE : (permanently_delete_finished_task s task confirm).archived_tasks =
      s.archived_tasks := by
    unfold permanently_delete_finished_task
    cases confirm <;> rfl
  have hF : (permanently_delete_finished_task s task confirm).finished_tasks =
      s.finished_tasks := by
    unfold permanently_delete_finished_task
    cases confirm
    · rfl
    · exact filter_task_ne_eq_self s.finished_tasks task.id h3
  refine ⟨hA, hB, hC, hD, hE, hF, by rw [hA]; exact h1, by rw [hD]; exact h1⟩

/-- Witness for C7: deleting the concrete active-only task (id 1) with
the dialog confirmed changes none of the collections. -/
theorem c7_delete_active_rejected_witness :
    (permanently_delete_task wState wPending true).tasks = wState.tasks ∧
    (permanently_delete_task wState wPending true).archived_tasks =
      wState.archived_tasks ∧
    wPending.id ∈ ids (permanently_delete_task wState wPending true).tasks :=
  ⟨(c7_delete_active_rejected wState wPending true (by decide) (by decide)
      (by decide)).1,
   (c7_delete_active_rejected wState wPending true (by decide) (by decide)
      (by decide)).2.1,
   (c7_delete_active_rejected wState wPending true (by decide) (by decide)
      (by decide)).2.2.2.2.2.2.1⟩

/-- C9 (amended): stopping a task's timer twice in a row produces
exactly the same state — timer mapping, collections and persisted
stores — as stopping it once; stopping an already-stopped timer leaves
the timer mapping and all three collections unchanged but rewrites the
active-tasks store with the in-memory active collection, so it is a
strict no-op exactly when that store is already in sync. -/
theorem c9_stop_timer_idempotent (s : AppState) (tid : Int) :
    stop_timer (stop_timer s tid) tid = stop_timer s tid ∧
    (tid ∉ s.timers →
      (stop_timer s tid).timers = s.timers ∧
      (stop_timer s tid).tasks = s.tasks ∧
      (stop_timer s tid).archived_tasks = s.archived_tasks ∧
      (stop_timer s tid).finished_tasks = s.finished_tasks ∧
      (stop_timer s tid).tasksStore = save_tasks s.tasks ∧
      (s.tasksStore = save_tasks s.tasks → stop_timer s tid = s)) := by
  constructor
  · cases s
    simp [stop_timer, filter_int_ne_idem]
  · intro h
    refine ⟨filter_int_ne_eq_self _ _ h, rfl, rfl, rfl, rfl,
      fun hsync => ?_⟩
    obtain ⟨tks, arch, fin, tim, st1, st2, st3⟩ := s
    simp only [stop_timer]
    rw [filter_int_ne_eq_self tim tid h, ← hsync]

/-- Witness for C9: double stop equals single stop on the concrete
running-timer state, and a stop of a never-started timer on the in-sync
two-task state is a strict no-op. -/
theorem c9_stop_timer_idempotent_witness :
    stop_timer (stop_timer wState 1) 1 = stop_timer wState 1 ∧
    (stop_timer wPair 99).timers = wPair.timers ∧
    stop_timer wPair 99 = wPair :=
  ⟨(c9_stop_timer_idempotent wState 1).1,
   ((c9_stop_timer_idempotent wPair 99).2 (by decide)).1,
   ((c9_stop_timer_idempotent wPair 99).2 (by decide)).2.2.2.2.2 (by decide)⟩

/-- Counterexample for C9: in a state with no running timers but a tasks
store lagging behind memory (as between ticks, which never persist),
stopping the already-stopped timer 1 changes the state — it rewrites
the tasks store — so it is not a no-op as the claim states. -/
theorem c9_stop_already_stopped_counterexample :
    1 ∉ wStale.timers ∧ stop_timer wStale 1 ≠ wStale := by
  decide

/-- Witness for C10: two concrete id-less records load to two tasks both
carrying id 0. -/
theorem c10_missing_id_defaults_zero_witness :
    (Task.from_dict wDictEmpty "n1").id = 0 ∧
    ids (load_tasks (StoreContent.good [wDictEmpty, wDictDur]) "n1").1 =
      [0, 0] ∧
    ¬ (ids (load_tasks (StoreContent.good [wDictEmpty, wDictDur]) "n1").1).Nodup :=
  ⟨(c10_missing_id_defaults_zero wDictEmpty wDictDur "n1").1 rfl,
   ((c10_missing_id_defaults_zero wDictEmpty wDictDur "n1").2 rfl rfl).1,
   ((c10_missing_id_defaults_zero wDictEmpty wDictDur "n1").2 rfl rfl).2⟩

/-- C1: every lifecycle operation — create, complete, reopen, archive,
restore, both permanent deletes, and edit — preserves the invariant that
each task id lies in exactly one of the three collections and that
collection membership matches the status field ("pending" iff active,
"done" iff finished, "archived" iff archived).  The transition
operations are applied, as the UI does, to a task taken from the
collection the operation moves it out of. -/
theorem c1_lifecycle_preserves_invariant (s : AppState) (h : Invariant s) :
    (∀ title description prio due now,
      Invariant (on_save_new s title description prio due now)) ∧
    (∀ task ∈ s.tasks, Invariant (mark_done s task)) ∧
    (∀ task ∈ s.finished_tasks, Invariant (undo_done s task)) ∧
    (∀ task ∈ s.tasks, Invariant (archive_task s task)) ∧
    (∀ task ∈ s.archived_tasks, Invariant (restore_task s task)) ∧
    (∀ task confirm, Invariant (permanently_delete_task s task confirm)) ∧
    (∀ task confirm,
      Invariant (permanently_delete_finished_task s task confirm)) ∧
    (∀ tid title description prio due,
      Invariant (on_save_edit s tid title description prio due)) :=
  ⟨fun title description prio due now =>
      inv_on_save_new s title description prio due now h,
   fun task ht => inv_mark_done s task h ht,
   fun task ht => inv_undo_done s task h ht,
   fun task ht => inv_archive_task s task h ht,
   fun task ht => inv_restore_task s task h ht,
   fun task confirm => inv_permanently_delete_task s task confirm h,
   fun task confirm => inv_permanently_delete_finished_task s task confirm h,
   fun tid title description prio due =>
      inv_on_save_edit s tid title description prio due h⟩

/-- Witness for C1: all eight lifecycle operations applied to the
concrete invariant-satisfying state keep the invariant. -/
theorem c1_lifecycle_preserves_invariant_witness :
    Invariant (on_save_new wState "new" "" "low" none "n9") ∧
    Invariant (mark_done wState wPending) ∧
    Invariant (undo_done wState wDone) ∧
    Invariant (archive_task wState wPending) ∧
    Invariant (restore_task wState wArch) ∧
    Invariant (permanently_delete_task wState wArch true) ∧
    Invariant (permanently_delete_finished_task wState wDone true) ∧
    Invariant (on_save_edit wState 1 "edited" "d" "high" none) :=
  ⟨(c1_lifecycle_preserves_invariant wState (by decide)).1 "new" "" "low"
      none "n9",
   (c1_lifecycle_preserves_invariant wState (by decide)).2.1 wPending
      (by decide),
   (c1_lifecycle_preserves_invariant wState (by decide)).2.2.1 wDone
      (by decide),
   (c1_lifecycle_preserves_invariant wState (by decide)).2.2.2.1 wPending
      (by decide),
   (c1_lifecycle_preserves_invariant wState (by decide)).2.2.2.2.1 wArch
      (by decide),
   (c1_lifecycle_preserves_invariant wState (by decide)).2.2.2.2.2.1 wArch
      true,
   (c1_lifecycle_preserves_invariant wState (by decide)).2.2.2.2.2.2.1 wDone
      true,
   (c1_lifecycle_preserves_invariant wState (by decide)).2.2.2.2.2.2.2 1
      "edited" "d" "high" none⟩

end Todo
